import Mathlib

/-!
Shallow embedding of the FESTIM 1D meshing module (src/FESTIM/meshing.py).

The module builds a one-dimensional interval mesh (uniform or from an
explicit vertex list), adaptively refines it by bisection near a point of
interest, validates material border partitions, and tags cells and boundary
facets with material and boundary identifiers.

Modelling conventions:
- Python scalars are rationals; where the CPython distinction between the
  int object 0 and the float 0.0 is observable (the identity test
  `all_borders[0][0] is not 0` in check_borders) border values are modelled
  by `PyNum`, which carries the int/float tag alongside the value.
- A fenics 1D mesh is a list of vertex coordinates plus a list of cells,
  each cell a pair of vertex indices.
- Exceptions (KeyError on a missing configuration key, ValueError raised by
  check_borders, errors raised inside fenics constructors) become
  `Except MeshError`.
- The unbounded `while` refinement loop is given explicit fuel; a `none`
  result means the loop has not terminated within the given fuel, and a
  result of `none` for every fuel models divergence.
- External collaborators (the XDMF loaders) are passed in as function
  arguments; the fenics primitives `IntervalMesh`, `refine` and `near` are
  modelled from the spec contract since their code is not part of this
  repository.
-/

namespace FESTIM

/-- A Python numeric scalar together with its runtime type tag.  The tag is
observable through CPython identity tests such as `x is 0`, which is true
exactly for the cached small-int object 0 and false for the float 0.0. -/
inductive PyNum where
  | intVal (n : ℤ)
  | floatVal (q : ℚ)
  deriving DecidableEq

/-- Numeric value of a Python scalar (used by `==`, `!=`, `<=`, `<`). -/
def PyNum.toRat : PyNum → ℚ
  | .intVal n => (n : ℚ)
  | .floatVal q => q

/-- CPython identity test `x is 0`: true exactly when x is the interned
int object 0 (any int of value 0 is that object; a float 0.0 is not). -/
def PyNum.isInt0 : PyNum → Bool
  | .intVal 0 => true
  | _ => false

/-- A 1D fenics mesh: vertex coordinates plus cells given as pairs of
vertex indices. -/
structure Mesh where
  vertices : List ℚ
  cells : List (ℕ × ℕ)
  deriving DecidableEq

/-- The mesh whose vertices are the given (sorted) coordinate list, with
cell j joining vertices j and j+1, as produced by fenics for 1D interval
meshes. -/
def Mesh.ofSorted (vs : List ℚ) : Mesh :=
  { vertices := vs, cells := (List.range (vs.length - 1)).map fun j => (j, j + 1) }

/-- A material dictionary: an id and a border interval (low, high). -/
structure Material where
  id : ℕ
  borders : PyNum × PyNum
  deriving DecidableEq

/-- One refinement spec: a target number of additional cells and the
refinement point x. -/
structure Refinement where
  cells : ℕ
  x : ℚ
  deriving DecidableEq

/-- The Python object stored under the "mesh" configuration key: either an
actual fenics Mesh (isinstance check succeeds) or some other object. -/
inductive PyObj where
  | mesh (m : Mesh)
  | other
  deriving DecidableEq

/-- The mesh_parameters dictionary.  A `none` field models an absent key;
file paths are opaque tokens (their content is never inspected here). -/
structure MeshParameters where
  mesh_file : Option ℕ := none
  mesh : Option PyObj := none
  vertices : Option (List ℚ) := none
  initial_number_of_cells : Option ℤ := none
  size : Option ℚ := none
  refinements : Option (List Refinement) := none
  cells_file : Option ℕ := none
  facets_file : Option ℕ := none
  meshfunction_cells : Option (List ℕ) := none
  meshfunction_facets : Option (List ℕ) := none

/-- The outer parameters dictionary consumed by `subdomains`. -/
structure Parameters where
  mesh_parameters : MeshParameters
  materials : List Material

/-- Configuration keys whose absence raises a KeyError somewhere in the
meshing module. -/
inductive ConfigKey where
  | initial_number_of_cells
  | size
  | facets_file
  | meshfunction_facets
  deriving DecidableEq

/-- The error taxonomy of the module: KeyError on a missing configuration
key, the three ValueError messages of check_borders, the IndexError on an
empty border list, the ValueError of max() on an empty vertex list, and the
error raised by the fenics IntervalMesh constructor on bad arguments. -/
inductive MeshError where
  | keyError (k : ConfigKey)
  | beginZero
  | bordersMismatch
  | sizeMismatch
  | indexError
  | valueError
  | intervalMeshError
  deriving DecidableEq

/-- Modelled from the spec: the fenics tolerance DOLFIN_EPS = 3.0e-16 used
by `near`. -/
def DOLFIN_EPS : ℚ := 3 / 10 ^ 16

/-- Modelled from the spec: fenics `near(x, x0)`, true when x lies within
DOLFIN_EPS of x0 (coincidence within a small numeric tolerance). -/
def near (x x0 : ℚ) : Bool :=
  if x0 - DOLFIN_EPS ≤ x ∧ x ≤ x0 + DOLFIN_EPS then true else false

/-- generate_mesh_from_vertices: sort and de-duplicate the input
(`sorted(np.unique(vertices))`), then build nb_points vertices and
nb_cells = nb_points - 1 cells, cell j joining vertices j and j+1. -/
def generate_mesh_from_vertices (vertices : List ℚ) : Mesh :=
  let vs := (vertices.dedup).insertionSort (· ≤ ·)
  let nb_points := vs.length
  let nb_cells := nb_points - 1
  { vertices := vs, cells := (List.range nb_cells).map fun j => (j, j + 1) }

/-- The n + 1 evenly spaced vertices of IntervalMesh(n, 0, size). -/
def intervalVertices (n : ℤ) (size : ℚ) : List ℚ :=
  (List.range (n.toNat + 1)).map fun i : ℕ => (i : ℚ) * size / (n : ℚ)

/-- Modelled from the spec: the fenics IntervalMesh(n, 0, size) constructor,
which produces n + 1 evenly spaced vertices over [0, size] and fails with a
configuration error when the cell count or the domain length is not
positive (the constructor is external library code; the spec states this
contract for the uniform-mesh builder). -/
def intervalMesh (n : ℤ) (size : ℚ) : Except MeshError (List ℚ) :=
  if 1 ≤ n ∧ 0 < size then .ok (intervalVertices n size)
  else .error .intervalMeshError

/-- One pass of the refinement loop body: mark every cell whose midpoint is
strictly left of p, then replace each marked cell by its two halves
(modelled from the spec contract for fenics `refine` with cell markers on a
1D mesh: marked cells are bisected, unmarked cells pass through). -/
def refineOnce (p : ℚ) : List ℚ → List ℚ
  | a :: b :: rest =>
      if (a + b) / 2 < p then a :: (a + b) / 2 :: refineOnce p (b :: rest)
      else a :: refineOnce p (b :: rest)
  | l => l

/-- The `while len(mesh.cells()) < target` loop of mesh_and_refine, with
explicit fuel; `none` means the loop has not exited within the fuel. -/
def refineLoop (p : ℚ) (target : ℕ) : ℕ → List ℚ → Option (List ℚ)
  | 0, vs => if vs.length - 1 < target then none else some vs
  | fuel + 1, vs =>
      if vs.length - 1 < target then refineLoop p target fuel (refineOnce p vs)
      else some vs

/-- The `for refinement in refinements` loop: each spec runs its while loop
with target = (cell count at the start of the spec) + refinement.cells,
matching the reassignment of initial_number_of_cells after each spec. -/
def processRefinements (fuel : ℕ) : List Refinement → List ℚ → Option (List ℚ)
  | [], vs => some vs
  | r :: rest, vs =>
      match refineLoop r.x (vs.length - 1 + r.cells) fuel vs with
      | none => none
      | some vs2 => processRefinements fuel rest vs2

/-- mesh_and_refine: read initial_number_of_cells and size (KeyError when
absent), build IntervalMesh(n, 0, size), then run the refinement loops when
a refinements list is present.  `.ok none` means a refinement loop did not
terminate within the fuel. -/
def mesh_and_refine (fuel : ℕ) (mp : MeshParameters) : Except MeshError (Option Mesh) :=
  match mp.initial_number_of_cells with
  | none => .error (.keyError .initial_number_of_cells)
  | some n =>
    match mp.size with
    | none => .error (.keyError .size)
    | some size =>
      match intervalMesh n size with
      | .error e => .error e
      | .ok vs0 =>
        match mp.refinements with
        | none => .ok (some (Mesh.ofSorted vs0))
        | some refs =>
          match processRefinements fuel refs vs0 with
          | none => .ok none
          | some vs2 => .ok (some (Mesh.ofSorted vs2))

/-- create_mesh: strategy dispatch in source order — external mesh file,
pre-built mesh object of the correct type, explicit vertex list, and
otherwise generate-and-refine.  The external XDMF mesh loader is passed in
as `load_mesh_file` (external collaborator). -/
def create_mesh (load_mesh_file : ℕ → Mesh) (fuel : ℕ) (mp : MeshParameters) :
    Except MeshError (Option Mesh) :=
  match mp.mesh_file with
  | some f => .ok (some (load_mesh_file f))
  | none =>
    match mp.mesh with
    | some (.mesh m) => .ok (some m)
    | _ =>
      match mp.vertices with
      | some vs => .ok (some (generate_mesh_from_vertices vs))
      | none => mesh_and_refine fuel mp

/-- Insertion step of the stable sort used to model Python
`sorted(all_borders, key=itemgetter(0))` (comparison by lower bound). -/
def insertBorder (b : PyNum × PyNum) : List (PyNum × PyNum) → List (PyNum × PyNum)
  | [] => [b]
  | c :: rest =>
      if c.1.toRat ≤ b.1.toRat then c :: insertBorder b rest
      else b :: c :: rest

/-- Sort the border list by lower bound ascending. -/
def sortBorders : List (PyNum × PyNum) → List (PyNum × PyNum)
  | [] => []
  | b :: rest => insertBorder b (sortBorders rest)

/-- The adjacent-pair check of check_borders: every upper bound equals the
next lower bound (in numeric value, Python `!=`). -/
def adjacentOk : List (PyNum × PyNum) → Bool
  | a :: b :: rest => if a.2.toRat = b.1.toRat then adjacentOk (b :: rest) else false
  | _ => true

/-- check_borders: collect the border pairs, sort by lower bound, then
check in order (a) the first lower bound — with the CPython identity test
`all_borders[0][0] is not 0` exactly as in the source — (b) every adjacent
pair matches, (c) the last upper bound equals size. -/
def check_borders (size : ℚ) (materials : List Material) : Except MeshError Bool :=
  let all_borders := sortBorders (materials.map fun m => m.borders)
  match all_borders with
  | [] => .error .indexError
  | b0 :: rest =>
    if b0.1.isInt0 = false then .error .beginZero
    else if adjacentOk (b0 :: rest) = false then .error .bordersMismatch
    else if (rest.getLastD b0).2.toRat ≠ size then .error .sizeMismatch
    else .ok true

/-- A material border interval contains a midpoint (inclusive on both
ends). -/
def covers (material : Material) (mid : ℚ) : Prop :=
  material.borders.1.toRat ≤ mid ∧ mid ≤ material.borders.2.toRat

/-- Body of the inner `for material in materials` loop of subdomains_1D,
acting on the current tag of one cell: with a single material assign its id
unconditionally, otherwise assign the id when the border interval contains
the cell midpoint. -/
def tagStep (single : Bool) (mid : ℚ) (acc : ℕ) (material : Material) : ℕ :=
  if single then material.id
  else if material.borders.1.toRat ≤ mid ∧ mid ≤ material.borders.2.toRat then material.id
  else acc

/-- The tag a cell of midpoint mid receives after the inner material loop,
starting from the MeshFunction default 0. -/
def tagCell (materials : List Material) (mid : ℚ) : ℕ :=
  materials.foldl (tagStep (materials.length == 1) mid) 0

/-- The facet loop body of subdomains_1D for one facet at position x:
start from 0, set 1 when near the left endpoint, then set 2 when near
size (the second test runs after the first, as in the source). -/
def tagFacet (size x : ℚ) : ℕ :=
  let t : ℕ := 0
  let t := if near x 0 then 1 else t
  if near x size then 2 else t

/-- Imperative tag-writing loop: write f a into slot i of the marker array
for each entity a, advancing the index (models the assignments into a
fenics MeshFunction). -/
def writeTags {α : Type} (f : α → ℕ) : List α → ℕ → List ℕ → List ℕ
  | [], _, out => out
  | a :: rest, i, out => writeTags f rest (i + 1) (out.set i (f a))

/-- Midpoint of a cell: mean of its two vertex coordinates. -/
def cellMidpoint (vs : List ℚ) (c : ℕ × ℕ) : ℚ :=
  (vs.getD c.1 0 + vs.getD c.2 0) / 2

/-- subdomains_1D: produce the cell marker array (default 0, one slot per
cell, written by the material loop) and the facet marker array (default 0,
one slot per facet — in 1D every vertex is a facet — written by the
endpoint tests). -/
def subdomains_1D (mesh : Mesh) (materials : List Material) (size : ℚ) :
    List ℕ × List ℕ :=
  (writeTags (fun c => tagCell materials (cellMidpoint mesh.vertices c)) mesh.cells 0
      (List.replicate mesh.cells.length 0),
   writeTags (tagFacet size) mesh.vertices 0
      (List.replicate mesh.vertices.length 0))

/-- subdomains: dispatch on cells_file (external XDMF tag loader, passed in
as `load_xdmf`), then on meshfunction_cells (pre-built marker arrays), and
otherwise compute size — the maximum of the vertices when a vertex list is
present, the configured size field when not — validate borders when more
than one material exists, and delegate to subdomains_1D. -/
def subdomains (load_xdmf : ℕ → ℕ → List ℕ × List ℕ) (mesh : Mesh)
    (parameters : Parameters) : Except MeshError (List ℕ × List ℕ) :=
  let mp := parameters.mesh_parameters
  match mp.cells_file with
  | some cf =>
      match mp.facets_file with
      | none => .error (.keyError .facets_file)
      | some ff => .ok (load_xdmf cf ff)
  | none =>
    match mp.meshfunction_cells with
    | some mc =>
        match mp.meshfunction_facets with
        | none => .error (.keyError .meshfunction_facets)
        | some mf => .ok (mc, mf)
    | none =>
      match (match mp.vertices with
             | some vs =>
                 match vs.max? with
                 | some s => Except.ok s
                 | none => Except.error MeshError.valueError
             | none =>
                 match mp.size with
                 | some s => Except.ok s
                 | none => Except.error (MeshError.keyError ConfigKey.size)) with
      | .error e => .error e
      | .ok size =>
        if parameters.materials.length > 1 then
          match check_borders size parameters.materials with
          | .error e => .error e
          | .ok _ => .ok (subdomains_1D mesh parameters.materials size)
        else .ok (subdomains_1D mesh parameters.materials size)

/-- Cell count of a mesh-construction result (0 when no mesh was
produced). -/
def cellCountResult (r : Except MeshError (Option Mesh)) : ℕ :=
  match r with
  | .ok (some m) => m.cells.length
  | _ => 0

/-- Whether a mesh-construction result produced a mesh (the refinement
loops all terminated and no error was raised). -/
def isOkSome (r : Except MeshError (Option Mesh)) : Bool :=
  match r with
  | .ok (some _) => true
  | _ => false

/-- Demo materials list with a single material, used by witnesses. -/
def demoMaterials : List Material := [⟨7, (.intVal 0, .intVal 1)⟩]

/-- Demo parameters with an explicit vertex list, used by witnesses. -/
def demoParams : Parameters :=
  { mesh_parameters := { vertices := some [1] }, materials := demoMaterials }

/-- Demo mesh on [0, 2] with two unit cells, used by witnesses. -/
def demoMesh : Mesh := Mesh.ofSorted [0, 1, 2]

/-- Demo two-material list partitioning [0, 2], used by witnesses. -/
def demoMaterials2 : List Material :=
  [⟨3, (.intVal 0, .intVal 1)⟩, ⟨4, (.intVal 1, .intVal 2)⟩]

/-- Demo stand-in for the external XDMF tag loader, used by witnesses. -/
def demoLoader : ℕ → ℕ → List ℕ × List ℕ := fun _ _ => ([], [])

example : refineOnce (3/10) [0, 1/10, 1/5] = [0, 1/20, 1/10, 3/20, 1/5] := by
  norm_num [refineOnce]

example :
    check_borders 2 [⟨1, (.floatVal 0, .intVal 1)⟩, ⟨2, (.intVal 1, .intVal 2)⟩] =
      .error .beginZero := by
  norm_num [check_borders, sortBorders, insertBorder, adjacentOk, PyNum.toRat, PyNum.isInt0]

example :
    check_borders 2 [⟨1, (.intVal 0, .intVal 1)⟩, ⟨2, (.intVal 1, .intVal 2)⟩] =
      .ok true := by
  norm_num [check_borders, sortBorders, insertBorder, adjacentOk, PyNum.toRat, PyNum.isInt0]

example : intervalVertices 2 1 = [0, 1/2, 1] := by
  rw [intervalVertices, show (2:ℤ).toNat + 1 = 3 from rfl,
    show List.range 3 = [0, 1, 2] from rfl]
  norm_num

example : near (1/2) 0 = false := by norm_num [near, DOLFIN_EPS]

example : tagFacet 1 1 = 2 := by norm_num [tagFacet, near, DOLFIN_EPS]

example : tagFacet 1 0 = 1 := by norm_num [tagFacet, near, DOLFIN_EPS]

example :
    subdomains_1D (Mesh.ofSorted [0, 1, 2]) [⟨3, (.intVal 0, .intVal 1)⟩, ⟨4, (.intVal 1, .intVal 2)⟩] 2 =
      ([3, 4], [1, 0, 2]) := by
  norm_num [subdomains_1D, Mesh.ofSorted, writeTags, tagCell, tagStep, tagFacet, near,
    DOLFIN_EPS, cellMidpoint, List.range_succ, PyNum.toRat]
  decide

theorem writeTags_append {α : Type} (f : α → ℕ) (l : List α) :
    ∀ (pre out : List ℕ), out.length = l.length →
      writeTags f l pre.length (pre ++ out) = pre ++ l.map f := by
  induction l with
  | nil =>
    intro pre out h
    have h0 : out = [] := by simpa using h
    subst h0
    simp [writeTags]
  | cons a rest ih =>
    intro pre out h
    match out, h with
    | o :: out', h =>
      rw [writeTags, List.set_append_right _ _ (Nat.le_refl _), Nat.sub_self,
        List.set_cons_zero]
      have hsplit : pre ++ f a :: out' = (pre ++ [f a]) ++ out' := by simp
      have hlen : pre.length + 1 = (pre ++ [f a]).length := by simp
      rw [hsplit, hlen, ih (pre ++ [f a]) out' (by simpa using h)]
      simp

theorem writeTags_eq_map {α : Type} (f : α → ℕ) (l : List α) (out : List ℕ)
    (h : out.length = l.length) : writeTags f l 0 out = l.map f := by
  simpa using writeTags_append f l [] out h

theorem subdomains_1D_eq (mesh : Mesh) (materials : List Material) (size : ℚ) :
    subdomains_1D mesh materials size
      = (mesh.cells.map fun c => tagCell materials (cellMidpoint mesh.vertices c),
         mesh.vertices.map (tagFacet size)) := by
  unfold subdomains_1D
  rw [writeTags_eq_map _ _ _ (by simp), writeTags_eq_map _ _ _ (by simp)]

theorem near_true {x x0 : ℚ} :
    near x x0 = true ↔ (x0 - DOLFIN_EPS ≤ x ∧ x ≤ x0 + DOLFIN_EPS) := by
  unfold near
  split <;> simp_all

theorem near_false {x x0 : ℚ} :
    near x x0 = false ↔ ¬(x0 - DOLFIN_EPS ≤ x ∧ x ≤ x0 + DOLFIN_EPS) := by
  unfold near
  split <;> simp_all

theorem foldl_tagStep_of_no_cover (mid : ℚ) (l : List Material) :
    ∀ acc : ℕ, (∀ m ∈ l, ¬ covers m mid) → l.foldl (tagStep false mid) acc = acc := by
  induction l with
  | nil => intro acc _; rfl
  | cons a rest ih =>
    intro acc h
    have ha : ¬ covers a mid := h a (by simp)
    have hstep : tagStep false mid acc a = acc := by
      unfold tagStep covers at *
      simp only [Bool.false_eq_true, if_false]
      exact if_neg ha
    rw [List.foldl_cons, hstep]
    exact ih acc fun m hm => h m (by simp [hm])

theorem foldl_tagStep_of_cover (mid : ℚ) (l : List Material) :
    ∀ acc : ℕ, (∃ m ∈ l, covers m mid) →
      ∃ m ∈ l, covers m mid ∧ l.foldl (tagStep false mid) acc = m.id := by
  induction l with
  | nil =>
    rintro acc ⟨m, hm, _⟩
    cases hm
  | cons a rest ih =>
    intro acc hex
    rw [List.foldl_cons]
    by_cases hrest : ∃ m ∈ rest, covers m mid
    · obtain ⟨m, hm, hc, heq⟩ := ih (tagStep false mid acc a) hrest
      exact ⟨m, by simp [hm], hc, heq⟩
    · have ha : covers a mid := by
        obtain ⟨m, hm, hc⟩ := hex
        rcases List.mem_cons.mp hm with rfl | hm2
        · exact hc
        · exact absurd ⟨m, hm2, hc⟩ hrest
      have hstep : tagStep false mid acc a = a.id := by
        unfold tagStep covers at *
        simp only [Bool.false_eq_true, if_false]
        exact if_pos ha
      push_neg at hrest
      rw [hstep, foldl_tagStep_of_no_cover mid rest a.id hrest]
      exact ⟨a, by simp, ha, rfl⟩

theorem tagCell_multi (materials : List Material) (mid : ℚ) (h : 1 < materials.length) :
    ((∀ m ∈ materials, ¬ covers m mid) → tagCell materials mid = 0) ∧
    ((∃ m ∈ materials, covers m mid) →
      ∃ m ∈ materials, covers m mid ∧ tagCell materials mid = m.id) := by
  have hb : (materials.length == 1) = false := by
    simp only [beq_eq_false_iff_ne, ne_eq]
    omega
  unfold tagCell
  rw [hb]
  exact ⟨fun hno => foldl_tagStep_of_no_cover mid materials 0 hno,
    fun hex => foldl_tagStep_of_cover mid materials 0 hex⟩

/-- Claim C3 (confirmed): for every non-empty input list with N distinct
values, the mesh built from explicit vertices has exactly N vertices in
strictly increasing order and N - 1 cells, cell j joining vertices j and
j + 1, regardless of input order or duplicates; a single unique vertex
gives a mesh with zero cells. -/
theorem C3_vertex_mesh (l : List ℚ) (_hne : l ≠ []) :
    (generate_mesh_from_vertices l).vertices.length = l.toFinset.card ∧
    List.Sorted (· < ·) (generate_mesh_from_vertices l).vertices ∧
    (generate_mesh_from_vertices l).vertices.toFinset = l.toFinset ∧
    (generate_mesh_from_vertices l).cells.length
        = (generate_mesh_from_vertices l).vertices.length - 1 ∧
    (∀ j, j < (generate_mesh_from_vertices l).cells.length →
      (generate_mesh_from_vertices l).cells.getD j (0, 0) = (j, j + 1)) ∧
    (l.toFinset.card = 1 → (generate_mesh_from_vertices l).cells = []) := by
  have hperm : List.Perm (l.dedup.insertionSort (· ≤ ·)) l.dedup :=
    List.perm_insertionSort _ _
  have hlen : (l.dedup.insertionSort (· ≤ ·)).length = l.toFinset.card := by
    rw [hperm.length_eq, List.card_toFinset]
  have hnodup : (l.dedup.insertionSort (· ≤ ·)).Nodup :=
    hperm.nodup_iff.mpr l.nodup_dedup
  have hsorted : List.Sorted (· < ·) (l.dedup.insertionSort (· ≤ ·)) :=
    (List.sorted_insertionSort _ _).lt_of_le hnodup
  have hfin : (l.dedup.insertionSort (· ≤ ·)).toFinset = l.toFinset := by
    rw [List.toFinset_eq_of_perm _ _ hperm]
    exact List.toFinset.ext fun x => by simp [List.mem_dedup]
  refine ⟨?_, ?_, ?_, ?_, ?_, ?_⟩
  · simpa [generate_mesh_from_vertices] using hlen
  · simpa [generate_mesh_from_vertices] using hsorted
  · simpa [generate_mesh_from_vertices] using hfin
  · simp [generate_mesh_from_vertices]
  · intro j hj
    simp only [generate_mesh_from_vertices, List.length_map, List.length_range] at hj
    have hj2 : j < l.dedup.length - 1 := by rwa [hperm.length_eq] at hj
    simp [generate_mesh_from_vertices, List.getD_eq_getElem?_getD, List.getElem?_map,
      List.getElem?_range hj2]
  · intro hcard
    have : (generate_mesh_from_vertices l).cells.length = 0 := by
      simp [generate_mesh_from_vertices, hlen.trans hcard]
    exact List.length_eq_zero.mp this

theorem C3_vertex_mesh_witness :
    (generate_mesh_from_vertices [1, 2, 1]).vertices.length
      = ([1, 2, 1] : List ℚ).toFinset.card :=
  (C3_vertex_mesh [1, 2, 1] (by simp)).1

/-- Claim C7 (confirmed): with exactly one material of id k, every cell is
tagged k unconditionally; the facet marker array tags each facet position
by the endpoint tests — near 0 gives 1, near size gives 2, all other
facets keep 0 (stated for domains longer than twice the tolerance, so the
two endpoint tests cannot both fire on one facet). -/
theorem C7_single_material (mesh : Mesh) (k : ℕ) (b : PyNum × PyNum) (size : ℚ)
    (hsize : 2 * DOLFIN_EPS < size) :
    (subdomains_1D mesh [⟨k, b⟩] size).1 = mesh.cells.map (fun _ => k) ∧
    (subdomains_1D mesh [⟨k, b⟩] size).2 = mesh.vertices.map (tagFacet size) ∧
    (∀ x : ℚ,
      (near x 0 = true → tagFacet size x = 1) ∧
      (near x size = true → tagFacet size x = 2) ∧
      (near x 0 = false → near x size = false → tagFacet size x = 0)) := by
  refine ⟨?_, ?_, ?_⟩
  · rw [subdomains_1D_eq]
    simp [tagCell, tagStep]
  · rw [subdomains_1D_eq]
  · intro x
    refine ⟨?_, ?_, ?_⟩
    · intro h0
      have h0p := near_true.mp h0
      have hs : near x size = false := by
        rw [near_false]
        rintro ⟨hs1, _⟩
        have : (0 : ℚ) < DOLFIN_EPS := by norm_num [DOLFIN_EPS]
        linarith [h0p.2]
      simp [tagFacet, h0, hs]
    · intro hs
      simp [tagFacet, hs]
    · intro h0 hs
      simp [tagFacet, h0, hs]

theorem C7_single_material_witness :
    (subdomains_1D demoMesh [⟨5, (.intVal 0, .intVal 1)⟩] 2).1
      = demoMesh.cells.map (fun _ => 5) :=
  (C7_single_material demoMesh 5 (.intVal 0, .intVal 1) 2 (by norm_num [DOLFIN_EPS])).1

/-- Claim C8 (confirmed): with more than one material, tagging is a total
pass — the cell marker array is exactly one tag per cell — where a cell
whose midpoint is covered by some material interval (inclusive bounds)
receives the id of a covering material, and an uncovered cell keeps the
default tag 0; no error is possible. -/
theorem C8_multi_material (mesh : Mesh) (materials : List Material) (size : ℚ)
    (h : 1 < materials.length) :
    (subdomains_1D mesh materials size).1
        = mesh.cells.map (fun c => tagCell materials (cellMidpoint mesh.vertices c)) ∧
    (subdomains_1D mesh materials size).1.length = mesh.cells.length ∧
    ∀ c ∈ mesh.cells,
      ((∀ m ∈ materials, ¬ covers m (cellMidpoint mesh.vertices c)) →
        tagCell materials (cellMidpoint mesh.vertices c) = 0) ∧
      ((∃ m ∈ materials, covers m (cellMidpoint mesh.vertices c)) →
        ∃ m ∈ materials, covers m (cellMidpoint mesh.vertices c) ∧
          tagCell materials (cellMidpoint mesh.vertices c) = m.id) := by
  refine ⟨by rw [subdomains_1D_eq], by rw [subdomains_1D_eq]; simp, ?_⟩
  intro c _
  exact tagCell_multi materials _ h

theorem C8_multi_material_witness :
    (subdomains_1D demoMesh demoMaterials2 2).1
      = demoMesh.cells.map (fun c => tagCell demoMaterials2 (cellMidpoint demoMesh.vertices c)) :=
  (C8_multi_material demoMesh demoMaterials2 2 (by norm_num [demoMaterials2])).1

/-- Claim C9 (confirmed): the tagging pass is deterministic — two runs on
the same mesh and materials produce identical marker pairs — and, more
strongly, each write loop overwrites every slot of its marker array, so the
output does not depend on the initial array contents; the mesh itself is
read-only input to the pass. -/
theorem C9_deterministic (mesh : Mesh) (materials : List Material) (size : ℚ) :
    subdomains_1D mesh materials size = subdomains_1D mesh materials size ∧
    (∀ out1 out2 : List ℕ, out1.length = mesh.cells.length → out2.length = mesh.cells.length →
      writeTags (fun c => tagCell materials (cellMidpoint mesh.vertices c)) mesh.cells 0 out1 =
      writeTags (fun c => tagCell materials (cellMidpoint mesh.vertices c)) mesh.cells 0 out2) ∧
    (∀ out1 out2 : List ℕ,
      out1.length = mesh.vertices.length → out2.length = mesh.vertices.length →
      writeTags (tagFacet size) mesh.vertices 0 out1 =
      writeTags (tagFacet size) mesh.vertices 0 out2) := by
  refine ⟨rfl, ?_, ?_⟩ <;> intro out1 out2 h1 h2 <;>
    rw [writeTags_eq_map _ _ _ h1, writeTags_eq_map _ _ _ h2]

theorem C9_deterministic_witness :
    writeTags (tagFacet 2) demoMesh.vertices 0 [9, 9, 9] =
      writeTags (tagFacet 2) demoMesh.vertices 0 [0, 0, 0] :=
  (C9_deterministic demoMesh demoMaterials2 2).2.2 [9, 9, 9] [0, 0, 0] rfl rfl

/-- Claim C2 (code_bug): the first check of check_borders is the CPython
identity test `all_borders[0][0] is not 0`, not a numeric comparison, so a
border list whose first lower bound is the float 0.0 — numerically equal
to 0 — is rejected with the begin-at-zero error, contradicting the
function docstring and the claimed iff; the claim examples with int
borders do behave as stated: [0,1],[1,2] with size 2 passes and
[0,1],[1.5,2] with size 2 fails with the borders-mismatch error. -/
theorem C2_begin_zero_identity_bug :
    check_borders 2 [⟨1, (.floatVal 0, .intVal 1)⟩, ⟨2, (.intVal 1, .intVal 2)⟩] =
        .error .beginZero ∧
    (PyNum.floatVal 0).toRat = 0 ∧
    check_borders 2 [⟨1, (.intVal 0, .intVal 1)⟩, ⟨2, (.intVal 1, .intVal 2)⟩] = .ok true ∧
    check_borders 2 [⟨1, (.intVal 0, .intVal 1)⟩, ⟨2, (.floatVal (3/2), .intVal 2)⟩] =
        .error .bordersMismatch := by
  refine ⟨?_, ?_, ?_, ?_⟩ <;>
    norm_num [check_borders, sortBorders, insertBorder, adjacentOk, PyNum.toRat, PyNum.isInt0]

/-- Claim C4 (confirmed): create_mesh selects exactly one strategy, first
match winning, in the order mesh_file, pre-built mesh of the correct type,
explicit vertex list, generate-and-refine; with a higher-precedence field
present the lower ones are ignored, and with none of the four sources
available the result is a configuration error (KeyError on the missing
generate-and-refine keys), not a mesh. -/
theorem C4_resolver (load : ℕ → Mesh) (fuel : ℕ) (mp : MeshParameters) :
    (∀ f, mp.mesh_file = some f → create_mesh load fuel mp = .ok (some (load f))) ∧
    (∀ m, mp.mesh_file = none → mp.mesh = some (.mesh m) →
      create_mesh load fuel mp = .ok (some m)) ∧
    (∀ vs, mp.mesh_file = none → (mp.mesh = none ∨ mp.mesh = some .other) →
      mp.vertices = some vs →
      create_mesh load fuel mp = .ok (some (generate_mesh_from_vertices vs))) ∧
    (mp.mesh_file = none → (mp.mesh = none ∨ mp.mesh = some .other) → mp.vertices = none →
      create_mesh load fuel mp = mesh_and_refine fuel mp) ∧
    (mp.mesh_file = none → (mp.mesh = none ∨ mp.mesh = some .other) → mp.vertices = none →
      mp.initial_number_of_cells = none →
      create_mesh load fuel mp = .error (.keyError .initial_number_of_cells)) := by
  refine ⟨?_, ?_, ?_, ?_, ?_⟩
  · intro f h
    simp [create_mesh, h]
  · intro m h1 h2
    simp [create_mesh, h1, h2]
  · intro vs h1 h2 h3
    rcases h2 with h2 | h2 <;> simp [create_mesh, h1, h2, h3]
  · intro h1 h2 h3
    rcases h2 with h2 | h2 <;> simp [create_mesh, h1, h2, h3]
  · intro h1 h2 h3 h4
    rcases h2 with h2 | h2 <;> simp [create_mesh, mesh_and_refine, h1, h2, h3, h4]

theorem C4_resolver_witness :
    create_mesh (fun _ => demoMesh) 0 {} = .error (.keyError .initial_number_of_cells) :=
  (C4_resolver (fun _ => demoMesh) 0 {}).2.2.2.2 rfl (Or.inl rfl) rfl rfl

/-- Claim C5 (confirmed, IntervalMesh modelled from the spec): building the
uniform mesh fails with an error whenever initial_number_of_cells or size
is missing (KeyError) or non-positive (IntervalMesh constructor error);
with both present and positive the result is the mesh with n + 1 evenly
spaced vertices over [0, size] — vertex i at i*size/n, n cells each of
length size/n. -/
theorem C5_uniform (fuel : ℕ) (mp : MeshParameters) :
    ((mp.initial_number_of_cells = none ∨ mp.size = none) →
      ∃ e, mesh_and_refine fuel mp = .error e) ∧
    (∀ (n : ℤ) (size : ℚ), mp.initial_number_of_cells = some n → mp.size = some size →
      (n ≤ 0 ∨ size ≤ 0) → mesh_and_refine fuel mp = .error .intervalMeshError) ∧
    (∀ (n : ℤ) (size : ℚ), mp.initial_number_of_cells = some n → mp.size = some size →
      mp.refinements = none → 1 ≤ n → 0 < size →
      mesh_and_refine fuel mp = .ok (some (Mesh.ofSorted (intervalVertices n size))) ∧
      (intervalVertices n size).length = n.toNat + 1 ∧
      (∀ i, i < n.toNat + 1 →
        (intervalVertices n size).getD i 0 = (i : ℚ) * size / (n : ℚ)) ∧
      (Mesh.ofSorted (intervalVertices n size)).cells.length = n.toNat ∧
      (∀ j, j < n.toNat →
        (intervalVertices n size).getD (j + 1) 0 - (intervalVertices n size).getD j 0
          = size / (n : ℚ))) := by
  refine ⟨?_, ?_, ?_⟩
  · intro h
    cases hinit : mp.initial_number_of_cells with
    | none =>
      refine ⟨.keyError .initial_number_of_cells, ?_⟩
      simp [mesh_and_refine, hinit]
    | some n =>
      rcases h with h | h
      · rw [hinit] at h
        cases h
      · refine ⟨.keyError .size, ?_⟩
        simp [mesh_and_refine, hinit, h]
  · intro n size hinit hsize hnp
    have hIM : intervalMesh n size = .error .intervalMeshError := by
      unfold intervalMesh
      rw [if_neg]
      rintro ⟨h1, h2⟩
      rcases hnp with h | h
      · omega
      · linarith
    simp [mesh_and_refine, hinit, hsize, hIM]
  · intro n size hinit hsize href hn hs
    have hnQ : (0 : ℚ) < (n : ℚ) := by exact_mod_cast lt_of_lt_of_le Int.one_pos hn
    have hIM : intervalMesh n size = .ok (intervalVertices n size) := by
      unfold intervalMesh
      rw [if_pos ⟨hn, hs⟩]
    have hget : ∀ i, i < n.toNat + 1 →
        (intervalVertices n size).getD i 0 = (i : ℚ) * size / (n : ℚ) := by
      intro i hi
      unfold intervalVertices
      rw [List.getD_eq_getElem?_getD, List.getElem?_map, List.getElem?_range hi]
      simp
    refine ⟨by simp [mesh_and_refine, hinit, hsize, href, hIM],
      by simp only [intervalVertices, List.length_map, List.length_range],
      hget,
      by simp only [Mesh.ofSorted, intervalVertices, List.length_map, List.length_range]
         omega, ?_⟩
    intro j hj
    rw [hget (j + 1) (by omega), hget j (by omega)]
    have hne : (n : ℚ) ≠ 0 := ne_of_gt hnQ
    push_cast
    field_simp
    ring

theorem C5_uniform_witness :
    mesh_and_refine 0 { initial_number_of_cells := some 2, size := some 1 } =
      .ok (some (Mesh.ofSorted (intervalVertices 2 1))) :=
  ((C5_uniform 0 { initial_number_of_cells := some 2, size := some 1 }).2.2 2 1
    rfl rfl rfl (by norm_num) (by norm_num)).1

/-- Claim C10 (confirmed): when an explicit vertices list is present, the
size used for border validation and for the facet endpoint tagging is the
maximum of the supplied vertices — the configured size field is ignored —
and the configured size is consulted exactly when vertices are absent. -/
theorem C10_size_from_vertices (load : ℕ → ℕ → List ℕ × List ℕ) (mesh : Mesh)
    (params : Parameters) (vs : List ℚ) (v0 : ℚ)
    (hcf : params.mesh_parameters.cells_file = none)
    (hmc : params.mesh_parameters.meshfunction_cells = none)
    (hv : params.mesh_parameters.vertices = some vs)
    (hmax : vs.max? = some v0) :
    (subdomains load mesh params =
      if params.materials.length > 1 then
        match check_borders v0 params.materials with
        | .error e => .error e
        | .ok _ => .ok (subdomains_1D mesh params.materials v0)
      else .ok (subdomains_1D mesh params.materials v0)) ∧
    (∀ s2 : Option ℚ,
      subdomains load mesh
        { params with mesh_parameters := { params.mesh_parameters with size := s2 } } =
      subdomains load mesh params) ∧
    (∀ (params2 : Parameters) (s : ℚ),
      params2.mesh_parameters.cells_file = none →
      params2.mesh_parameters.meshfunction_cells = none →
      params2.mesh_parameters.vertices = none →
      params2.mesh_parameters.size = some s →
      subdomains load mesh params2 =
        if params2.materials.length > 1 then
          match check_borders s params2.materials with
          | .error e => .error e
          | .ok _ => .ok (subdomains_1D mesh params2.materials s)
        else .ok (subdomains_1D mesh params2.materials s)) := by
  refine ⟨?_, ?_, ?_⟩
  · simp [subdomains, hcf, hmc, hv, hmax]
  · intro s2
    simp [subdomains, hcf, hmc, hv, hmax]
  · intro params2 s h1 h2 h3 h4
    simp [subdomains, h1, h2, h3, h4]

theorem refineOnce_length (p : ℚ) : ∀ vs : List ℚ, vs.length ≤ (refineOnce p vs).length := by
  intro vs
  induction vs with
  | nil => simp [refineOnce]
  | cons a tail ih =>
    cases tail with
    | nil => simp [refineOnce]
    | cons b rest =>
      simp only [refineOnce]
      split
      · simp only [List.length_cons] at ih ⊢
        omega
      · simp only [List.length_cons] at ih ⊢
        omega

theorem refineLoop_of_fixed (p : ℚ) (target : ℕ) (vs : List ℚ)
    (hlt : vs.length - 1 < target) (hfix : refineOnce p vs = vs) :
    ∀ fuel, refineLoop p target fuel vs = none := by
  intro fuel
  induction fuel with
  | zero => rw [refineLoop, if_pos hlt]
  | succ k ih => rw [refineLoop, if_pos hlt, hfix, ih]

theorem refineOnce_marked (p a b : ℚ) (rest : List ℚ) (h : (a + b) / 2 < p) :
    refineOnce p (a :: b :: rest) = a :: (a + b) / 2 :: refineOnce p (b :: rest) := by
  simp only [refineOnce, if_pos h]

theorem refineLoop_terminates (p : ℚ) :
    ∀ (fuel target : ℕ) (a b : ℚ) (rest : List ℚ),
      a ≤ b → (a + b) / 2 < p → target ≤ (a :: b :: rest).length - 1 + fuel →
      ∃ vs2 : List ℚ, refineLoop p target fuel (a :: b :: rest) = some vs2 ∧
        target ≤ vs2.length - 1 ∧ (a :: b :: rest).length ≤ vs2.length := by
  intro fuel
  induction fuel with
  | zero =>
    intro target a b rest _ _ hle
    simp only [List.length_cons] at hle
    refine ⟨a :: b :: rest, ?_, by simp only [List.length_cons]; omega, le_refl _⟩
    rw [refineLoop, if_neg (by simp only [List.length_cons]; omega)]
  | succ k ih =>
    intro target a b rest hab hmid hle
    by_cases hlt : (a :: b :: rest).length - 1 < target
    · have hstep := refineOnce_marked p a b rest hmid
      have hab2 : a ≤ (a + b) / 2 := by linarith
      have hmid2 : (a + (a + b) / 2) / 2 < p := by linarith
      have hlen : (b :: rest).length ≤ (refineOnce p (b :: rest)).length :=
        refineOnce_length p _
      have hle2 : target ≤ (a :: (a + b) / 2 :: refineOnce p (b :: rest)).length - 1 + k := by
        simp only [List.length_cons] at hle hlen ⊢
        omega
      obtain ⟨vs2, heq, htar, hmono⟩ := ih target a ((a + b) / 2) (refineOnce p (b :: rest))
        hab2 hmid2 hle2
      refine ⟨vs2, ?_, htar, ?_⟩
      · rw [refineLoop, if_pos hlt, hstep, heq]
      · simp only [List.length_cons] at hmono hlen ⊢
        omega
    · refine ⟨a :: b :: rest, ?_, by omega, le_refl _⟩
      rw [refineLoop, if_neg hlt]

theorem intervalVertices_length (n : ℤ) (size : ℚ) :
    (intervalVertices n size).length = n.toNat + 1 := by
  simp only [intervalVertices, List.length_map, List.length_range]

theorem intervalVertices_cons (n : ℤ) (size : ℚ) (hn : 1 ≤ n) :
    ∃ rest : List ℚ, intervalVertices n size = 0 :: size / (n : ℚ) :: rest := by
  obtain ⟨t, ht⟩ : ∃ t, n.toNat + 1 = t + 1 + 1 := ⟨n.toNat - 1, by omega⟩
  refine ⟨((List.range t).map (fun i : ℕ => i + 1 + 1)).map
      (fun i : ℕ => (i : ℚ) * size / (n : ℚ)), ?_⟩
  unfold intervalVertices
  rw [ht, List.range_succ_eq_map, List.range_succ_eq_map, List.map_cons, List.map_cons,
    List.map_map, List.map_map]
  norm_num [Function.comp, Nat.succ_eq_add_one]

/-- Claim C6 (confirmed): the refinement loop terminates only when every
iteration below target marks at least one cell (a pass that marks nothing
leaves the mesh fixed, so the loop returns no result for any fuel), and in
particular the configuration with two cells on [0, 1], one additional cell
requested, and refinement point 0 — at the left endpoint of the domain —
never terminates: there is no maximum-iteration or no-progress guard. -/
theorem C6_nontermination :
    (∀ (p : ℚ) (target : ℕ) (vs : List ℚ) (fuel : ℕ),
      vs.length - 1 < target → refineOnce p vs = vs →
      refineLoop p target fuel vs = none) ∧
    (∀ fuel : ℕ,
      mesh_and_refine fuel
        { initial_number_of_cells := some 2, size := some 1,
          refinements := some [⟨1, 0⟩] } = .ok none) := by
  constructor
  · intro p target vs fuel hlt hfix
    exact refineLoop_of_fixed p target vs hlt hfix fuel
  · intro fuel
    have hIV : intervalVertices 2 1 = [0, 1/2, 1] := by
      rw [intervalVertices, show (2:ℤ).toNat + 1 = 3 from rfl,
        show List.range 3 = [0, 1, 2] from rfl]
      norm_num
    have hIM : intervalMesh 2 1 = .ok [0, 1/2, 1] := by
      unfold intervalMesh
      rw [if_pos (by norm_num), hIV]
    have hfix : refineOnce 0 [0, 1/2, 1] = [0, 1/2, 1] := by
      norm_num [refineOnce]
    have hloop : refineLoop 0 3 fuel [0, 1/2, 1] = none :=
      refineLoop_of_fixed 0 3 [0, 1/2, 1] (by norm_num) hfix fuel
    simp only [mesh_and_refine, hIM, processRefinements]
    norm_num [hloop]

theorem C6_nontermination_witness :
    refineLoop 0 3 7 [0, 1/2, 1] = none :=
  C6_nontermination.1 0 3 [0, 1/2, 1] 7 (by norm_num) (by norm_num [refineOnce])

/-- Claim C1 (corrected): bisecting all marked cells in one pass can
overshoot, so the loop ends with at least — not exactly — the target
count: for any spec whose point lies strictly right of half the first cell
width, refinement is monotone (a pass never shrinks the vertex list) and
the loop terminates with cell count at least initial + requested. -/
theorem C1_refinement_termination (n : ℤ) (size p : ℚ) (c : ℕ)
    (hn : 1 ≤ n) (hs : 0 < size) (hp : size / (2 * (n : ℚ)) < p) :
    (∀ vs : List ℚ, vs.length ≤ (refineOnce p vs).length) ∧
    isOkSome (mesh_and_refine c
      { initial_number_of_cells := some n, size := some size,
        refinements := some [⟨c, p⟩] }) = true ∧
    n.toNat + c ≤ cellCountResult (mesh_and_refine c
      { initial_number_of_cells := some n, size := some size,
        refinements := some [⟨c, p⟩] }) := by
  have hnQ : (0 : ℚ) < (n : ℚ) := by exact_mod_cast lt_of_lt_of_le Int.one_pos hn
  obtain ⟨rest, hIV⟩ := intervalVertices_cons n size hn
  have hIVlen := intervalVertices_length n size
  have hrestlen : rest.length + 2 = n.toNat + 1 := by
    rw [hIV] at hIVlen
    simpa using hIVlen
  have hab : (0 : ℚ) ≤ size / (n : ℚ) := le_of_lt (div_pos hs hnQ)
  have hmid : ((0 : ℚ) + size / (n : ℚ)) / 2 < p := by
    rw [zero_add, div_div, mul_comm]
    exact hp
  have hIM : intervalMesh n size = .ok (intervalVertices n size) := by
    unfold intervalMesh
    rw [if_pos ⟨hn, hs⟩]
  obtain ⟨vs2, hloop, htar, _⟩ :=
    refineLoop_terminates p c (n.toNat + c) 0 (size / (n : ℚ)) rest hab hmid
      (by simp only [List.length_cons]; omega)
  have hT : (0 :: size / (n : ℚ) :: rest).length - 1 + c = n.toNat + c := by
    simp only [List.length_cons]
    omega
  have hentry : mesh_and_refine c
      { initial_number_of_cells := some n, size := some size,
        refinements := some [⟨c, p⟩] } = .ok (some (Mesh.ofSorted vs2)) := by
    simp only [mesh_and_refine, hIM, processRefinements]
    rw [hIV, hT, hloop]
  refine ⟨refineOnce_length p, ?_, ?_⟩
  · rw [hentry]
    rfl
  · rw [hentry]
    simp only [cellCountResult, Mesh.ofSorted, List.length_map, List.length_range]
    exact htar

theorem C1_refinement_termination_witness :
    isOkSome (mesh_and_refine 5
      { initial_number_of_cells := some 10, size := some 1,
        refinements := some [⟨5, 3/10⟩] }) = true :=
  (C1_refinement_termination 10 1 (3/10) 5 (by norm_num) (by norm_num) (by norm_num)).2.1

/-- Claim C1 counterexample: the claimed end-to-end scenario — 10 initial
cells on [0, 1], one spec requesting 5 more cells at x = 0.3 — terminates
with 19 cells, not the claimed 10 + 5 = 15: the second pass bisects six
cells at once and overshoots the target. -/
theorem C1_exact_count_counterexample :
    cellCountResult (mesh_and_refine 10
      { initial_number_of_cells := some 10, size := some 1,
        refinements := some [⟨5, 3/10⟩] }) = 19 ∧
    cellCountResult (mesh_and_refine 10
      { initial_number_of_cells := some 10, size := some 1,
        refinements := some [⟨5, 3/10⟩] }) ≠ 10 + 5 := by
  have hIV : intervalVertices 10 1
      = [0, 1/10, 1/5, 3/10, 2/5, 1/2, 3/5, 7/10, 4/5, 9/10, 1] := by
    rw [intervalVertices, show (10:ℤ).toNat + 1 = 11 from rfl,
      show List.range 11 = [0, 1, 2, 3, 4, 5, 6, 7, 8, 9, 10] from rfl]
    norm_num
  have hIM : intervalMesh 10 1
      = .ok [0, 1/10, 1/5, 3/10, 2/5, 1/2, 3/5, 7/10, 4/5, 9/10, 1] := by
    unfold intervalMesh
    rw [if_pos (by norm_num), hIV]
  have h1 : refineOnce (3/10) [0, 1/10, 1/5, 3/10, 2/5, 1/2, 3/5, 7/10, 4/5, 9/10, 1] =
      [0, 1/20, 1/10, 3/20, 1/5, 1/4, 3/10, 2/5, 1/2, 3/5, 7/10, 4/5, 9/10, 1] := by
    norm_num [refineOnce]
  have h2 : refineOnce (3/10)
        [0, 1/20, 1/10, 3/20, 1/5, 1/4, 3/10, 2/5, 1/2, 3/5, 7/10, 4/5, 9/10, 1] =
      [0, 1/40, 1/20, 3/40, 1/10, 1/8, 3/20, 7/40, 1/5, 9/40, 1/4, 11/40, 3/10, 2/5,
        1/2, 3/5, 7/10, 4/5, 9/10, 1] := by
    norm_num [refineOnce]
  have hloop : refineLoop (3/10) 15 10
        [0, 1/10, 1/5, 3/10, 2/5, 1/2, 3/5, 7/10, 4/5, 9/10, 1] =
      some [0, 1/40, 1/20, 3/40, 1/10, 1/8, 3/20, 7/40, 1/5, 9/40, 1/4, 11/40, 3/10, 2/5,
        1/2, 3/5, 7/10, 4/5, 9/10, 1] := by
    rw [show (10:ℕ) = 9 + 1 from rfl, refineLoop, if_pos (by norm_num), h1,
      show (9:ℕ) = 8 + 1 from rfl, refineLoop, if_pos (by norm_num), h2,
      show (8:ℕ) = 7 + 1 from rfl, refineLoop, if_neg (by norm_num)]
  have hfinal : mesh_and_refine 10
      { initial_number_of_cells := some 10, size := some 1,
        refinements := some [⟨5, 3/10⟩] }
      = .ok (some (Mesh.ofSorted [0, 1/40, 1/20, 3/40, 1/10, 1/8, 3/20, 7/40, 1/5, 9/40,
          1/4, 11/40, 3/10, 2/5, 1/2, 3/5, 7/10, 4/5, 9/10, 1])) := by
    simp only [mesh_and_refine, hIM, processRefinements]
    norm_num [hloop]
  rw [hfinal]
  constructor
  · simp [cellCountResult, Mesh.ofSorted]
  · simp [cellCountResult, Mesh.ofSorted]

theorem C10_size_from_vertices_witness :
    subdomains demoLoader demoMesh demoParams =
      if demoParams.materials.length > 1 then
        match check_borders 1 demoParams.materials with
        | .error e => .error e
        | .ok _ => .ok (subdomains_1D demoMesh demoParams.materials 1)
      else .ok (subdomains_1D demoMesh demoParams.materials 1) :=
  (C10_size_from_vertices demoLoader demoMesh demoParams [1] 1 rfl rfl rfl rfl).1

end FESTIM
